import Mathlib

/-!
Shallow embedding of the RDP multi-monitor reconciliation engine of
`src/libweston/backend-rdp/rdpdisp.c` (weston RDP backend).

Modelling conventions:
* C machine integers (`int`, `INT32`, `UINT32`) are modelled as `ℤ` or `ℕ`;
  all concrete values in the theorems stay far below `2^31`, so no wrap-around
  is reachable and no explicit `% 2^32` is needed.
* C `float` values (the per-monitor `clientScale`) are modelled as exact
  rationals `ℚ`; every C conversion `(int)f` is made explicit through
  `ftrunc` (truncation toward zero, the C semantics).
* C integer division `/` is modelled with `Int.tdiv` (truncation toward
  zero, the C99 semantics).  The division `monitorDef.width / scale` in the
  source divides a `UINT32` by an `int`; for `scale ≥ 1` and `width ≥ 0`
  (the only situation the theorems talk about) this agrees with `Int.tdiv`.
  For `scale = 0` the C program has undefined behaviour (division by zero);
  the total Lean model returns a junk value there.
* `wl_list` doubly linked lists are modelled as Lean lists whose head is the
  most recently inserted element (`wl_list_insert` at the list head).
* `qsort` with the comparator `l->monitorDef.x > r->monitorDef.x` (which
  only returns 0 or 1) is modelled as a stable sort by `x ≤ x`; glibc's
  merge sort produces exactly this order for such a comparator.
* `memcmp` on `struct rdp_monitor_mode` is modelled as decidable structural
  equality of the corresponding Lean structure (padding bytes ignored).
-/

namespace RdpDisp

/-- C cast `(int)f` of a floating-point value: truncation toward zero. -/
def ftrunc (q : ℚ) : ℤ := if q < 0 then ⌈q⌉ else ⌊q⌋

/-- DPI attributes of one declared monitor (subset of `rdpMonitor.attributes`
used by the engine). -/
structure MonitorAttributes where
  physicalWidth : ℤ
  physicalHeight : ℤ
  orientation : ℤ
  desktopScaleFactor : ℕ
  deviceScaleFactor : ℕ
deriving DecidableEq, Repr

/-- One monitor as declared by the RDP client (`rdpMonitor`); `orig_screen`
is zeroed by the handler before any use and is omitted. -/
structure RdpMonitor where
  x : ℤ
  y : ℤ
  width : ℤ
  height : ℤ
  is_primary : Bool
  attributes : MonitorAttributes
deriving DecidableEq, Repr

/-- A rectangle in weston coordinate space (`pixman_rectangle32_t`). -/
structure Rect32 where
  x : ℤ
  y : ℤ
  width : ℤ
  height : ℤ
deriving DecidableEq, Repr

/-- Per-monitor resolved mode (`struct rdp_monitor_mode`). -/
structure RdpMonitorMode where
  monitorDef : RdpMonitor
  scale : ℤ
  clientScale : ℚ
  rectWeston : Rect32
deriving DecidableEq, Repr

/-- Server-side configuration knobs read by the scale resolver
(fields of `struct monitor_private`). -/
structure MonitorConfig where
  enable_hi_dpi_support : Bool
  debug_desktop_scaling_factor : ℤ
  enable_fractional_hi_dpi_support : Bool
  enable_fractional_hi_dpi_roundup : Bool
deriving DecidableEq, Repr

/-- Embedding of `disp_get_client_scale_from_monitor`.  The C float
divisions are exact rational divisions here; the two integer-mode branches
truncate in C by casting through `(int)`, which on the unsigned operands
`desktopScaleFactor + 50` and `desktopScaleFactor` is `ℕ` division. -/
def disp_get_client_scale_from_monitor (mp : MonitorConfig) (m : RdpMonitor) : ℚ :=
  if mp.enable_hi_dpi_support then
    if mp.debug_desktop_scaling_factor ≠ 0 then
      (mp.debug_desktop_scaling_factor : ℚ) / 100
    else if mp.enable_fractional_hi_dpi_support then
      (m.attributes.desktopScaleFactor : ℚ) / 100
    else if mp.enable_fractional_hi_dpi_roundup then
      (((m.attributes.desktopScaleFactor + 50) / 100 : ℕ) : ℚ)
    else
      ((m.attributes.desktopScaleFactor / 100 : ℕ) : ℚ)
  else
    1

/-- Embedding of `disp_get_output_scale_from_monitor`: the C cast
`(int)clientScale`, with no clamping of any kind. -/
def disp_get_output_scale_from_monitor (mp : MonitorConfig) (m : RdpMonitor) : ℤ :=
  ftrunc (disp_get_client_scale_from_monitor mp m)

/-- Embedding of `is_line_intersected`: open-interval overlap of
`[l1,l2)` and `[r1,r2)` seen as line spans. -/
def is_line_intersected (l1 l2 r1 r2 : ℤ) : Bool :=
  max l1 r1 < min l2 r2

/-- The primary-monitor checks of the validation loop in
`disp_monitor_validate_and_compute_layout` (lines 425-439): count primaries,
fail as soon as the count exceeds one, and fail when a primary is not at the
client-space origin.  `count` is the number of primaries already seen. -/
def primaryScan : List RdpMonitorMode → ℕ → Bool
  | [], _ => true
  | m :: rest, count =>
    if m.monitorDef.is_primary then
      if count + 1 > 1 then false
      else if m.monitorDef.x ≠ 0 ∨ m.monitorDef.y ≠ 0 then false
      else primaryScan rest (count + 1)
    else primaryScan rest count

/-- Number of monitors flagged primary in a mode list. -/
def countPrimaries (ms : List RdpMonitorMode) : ℕ :=
  ms.countP (fun m => m.monitorDef.is_primary)

/-- Upper-left x of the combined client-space layout: the loop starts from 0
and lowers it (`if (upperLeftX > x) upperLeftX = x`), so it is
`min 0 (min over all x)`. -/
def upperLeftX (ms : List RdpMonitorMode) : ℤ :=
  ms.foldl (fun a m => min a m.monitorDef.x) 0

/-- Upper-left y of the combined client-space layout, same shape as
`upperLeftX`. -/
def upperLeftY (ms : List RdpMonitorMode) : ℤ :=
  ms.foldl (fun a m => min a m.monitorDef.y) 0

/-- Whether any monitor has a client scale other than 1.0. -/
def isScalingUsed (ms : List RdpMonitorMode) : Bool :=
  ms.any (fun m => m.clientScale ≠ 1)

/-- Stable sort of the mode array by client-space x (the `qsort` with
`compare_monitors_x`). -/
def sortByX (ms : List RdpMonitorMode) : List RdpMonitorMode :=
  List.insertionSort (fun a b => a.monitorDef.x ≤ b.monitorDef.x) ms

/-- Stable sort of the mode array by client-space y (the `qsort` with
`compare_monitors_y`). -/
def sortByY (ms : List RdpMonitorMode) : List RdpMonitorMode :=
  List.insertionSort (fun a b => a.monitorDef.y ≤ b.monitorDef.y) ms

/-- The horizontal-connectivity loop (lines 463-478): `offset` is
`offsetFromOriginClient`, `prev` the previous monitor; each step requires the
running right edge to equal the next monitor's left edge and the two
vertical spans to overlap as open intervals. -/
def chainHFrom (offset : ℤ) (prev : RdpMonitorMode) : List RdpMonitorMode → Bool
  | [] => true
  | m :: rest =>
    decide (offset = m.monitorDef.x) &&
    is_line_intersected prev.monitorDef.y (prev.monitorDef.y + prev.monitorDef.height)
      m.monitorDef.y (m.monitorDef.y + m.monitorDef.height) &&
    chainHFrom (offset + m.monitorDef.width) m rest

/-- Horizontal connectivity of an x-sorted mode list. -/
def connectedH : List RdpMonitorMode → Bool
  | [] => true
  | m :: rest => chainHFrom (m.monitorDef.x + m.monitorDef.width) m rest

/-- The vertical-connectivity loop (lines 488-503), the transpose of
`chainHFrom`. -/
def chainVFrom (offset : ℤ) (prev : RdpMonitorMode) : List RdpMonitorMode → Bool
  | [] => true
  | m :: rest =>
    decide (offset = m.monitorDef.y) &&
    is_line_intersected prev.monitorDef.x (prev.monitorDef.x + prev.monitorDef.width)
      m.monitorDef.x (m.monitorDef.x + m.monitorDef.width) &&
    chainVFrom (offset + m.monitorDef.height) m rest

/-- Vertical connectivity of a y-sorted mode list. -/
def connectedV : List RdpMonitorMode → Bool
  | [] => true
  | m :: rest => chainVFrom (m.monitorDef.y + m.monitorDef.height) m rest

/-- Scaled projection, horizontal arrangement (lines 522-538, the
`isConnected_H` branch): weston rect sizes are client sizes divided by the
per-monitor integer scale, x accumulates the running weston offset, y is
`abs((upperLeftY - y) / scale)`. -/
def projScaledH (ulY : ℤ) : ℤ → List RdpMonitorMode → List RdpMonitorMode
  | _, [] => []
  | offset, m :: rest =>
    let w := Int.tdiv m.monitorDef.width m.scale
    let h := Int.tdiv m.monitorDef.height m.scale
    let y := |Int.tdiv (ulY - m.monitorDef.y) m.scale|
    { m with rectWeston := ⟨offset, y, w, h⟩ } :: projScaledH ulY (offset + w) rest

/-- Scaled projection, vertical arrangement (the `isConnected_V` branch),
transpose of `projScaledH`. -/
def projScaledV (ulX : ℤ) : ℤ → List RdpMonitorMode → List RdpMonitorMode
  | _, [] => []
  | offset, m :: rest =>
    let w := Int.tdiv m.monitorDef.width m.scale
    let h := Int.tdiv m.monitorDef.height m.scale
    let x := |Int.tdiv (ulX - m.monitorDef.x) m.scale|
    { m with rectWeston := ⟨x, offset, w, h⟩ } :: projScaledV ulX (offset + h) rest

/-- Unscaled fallback projection (lines 541-550): weston rect is the client
rect translated by the absolute upper-left corner, and both scale fields are
forced back to identity. -/
def projUnscaled (ulX ulY : ℤ) (ms : List RdpMonitorMode) : List RdpMonitorMode :=
  ms.map (fun m =>
    { m with
      rectWeston := ⟨m.monitorDef.x + |ulX|, m.monitorDef.y + |ulY|,
                     m.monitorDef.width, m.monitorDef.height⟩
      scale := 1
      clientScale := 1 })

/-- Result of connectivity classification (internal booleans
`isConnected_H` / `isConnected_V` of the validator; `complex` is the state
where both are false). -/
inductive Arrangement where
  | horizontal
  | vertical
  | complex
deriving DecidableEq, Repr

/-- Embedding of `disp_monitor_validate_and_compute_layout`: `none` models
the `FALSE` return (rejected topology); on success the transformed (sorted,
rectWeston-filled) mode array is returned together with the arrangement that
was detected.  The fallback projection is used exactly when scaling is
unused or the placement is complex. -/
def disp_monitor_validate_and_compute_layout (ms : List RdpMonitorMode) :
    Option (Arrangement × List RdpMonitorMode) :=
  if primaryScan ms 0 = false then none
  else if 1 < ms.length then
    if connectedH (sortByX ms) then
      some (Arrangement.horizontal,
        if isScalingUsed ms then projScaledH (upperLeftY ms) 0 (sortByX ms)
        else projUnscaled (upperLeftX ms) (upperLeftY ms) (sortByX ms))
    else if connectedV (sortByY (sortByX ms)) then
      some (Arrangement.vertical,
        if isScalingUsed ms then projScaledV (upperLeftX ms) 0 (sortByY (sortByX ms))
        else projUnscaled (upperLeftX ms) (upperLeftY ms) (sortByY (sortByX ms)))
    else
      some (Arrangement.complex,
        projUnscaled (upperLeftX ms) (upperLeftY ms) (sortByY (sortByX ms)))
  else
    some (Arrangement.horizontal,
      if isScalingUsed ms then projScaledH (upperLeftY ms) 0 ms
      else projUnscaled (upperLeftX ms) (upperLeftY ms) ms)

/-- State of the compositor output bound to a head (`weston_output`
fields the engine reads or writes: position and scale). -/
structure OutputState where
  x : ℤ
  y : ℤ
  scale : ℤ
deriving DecidableEq, Repr

/-- Durable head (`struct rdp_head`): stable index, stored resolved mode,
and the optionally bound compositor output.  The derived client/weston
point-containment regions always equal the rectangles stored in
`monitorMode`, so they are not duplicated here. -/
structure RdpHead where
  index : ℕ
  monitorMode : RdpMonitorMode
  output : Option OutputState
deriving DecidableEq, Repr

/-- The authoritative head registry (`struct monitor_private`): the durable
`head_list` and the monotonically growing index counter.  The pending and
move-pending lists only exist during a transaction and are threaded through
the transaction functions explicitly. -/
structure MonitorPrivate where
  heads : List RdpHead
  headIndex : ℕ
deriving DecidableEq, Repr

/-- Compositor mutation primitives invoked by the engine (external
interface); creating or destroying a head also registers/releases it with
the compositor, so those are recorded as calls too. -/
inductive MutationCall where
  | createHead (index : ℕ)
  | destroyHead (index : ℕ)
  | outputDisable (index : ℕ)
  | outputSetScale (index : ℕ) (scale : ℤ)
  | outputEnable (index : ℕ)
  | outputSetMode (index : ℕ) (width height : ℤ)
  | outputMove (index : ℕ) (x y : ℤ)
deriving DecidableEq, Repr

/-- Find the first head in a pending list whose stored mode is
field-for-field identical to `mode` (the `memcmp` scan of
`disp_start_monitor_layout_change`), returning it together with the list
with that head removed. -/
def findRemove (mode : RdpMonitorMode) : List RdpHead → Option (RdpHead × List RdpHead)
  | [] => none
  | h :: t =>
    if h.monitorMode = mode then some (h, t)
    else (findRemove mode t).map (fun r => (r.1, h :: r.2))

/-- Embedding of the fast-match loop of `disp_start_monitor_layout_change`
(lines 196-220): for each new monitor mode in order, move the first
exactly-matching pending head to the move-pending list and record a done
flag.  Returns (pending left, move-pending, done flags aligned with the
mode list).  This loop performs no compositor call. -/
def startLayoutChange : List RdpMonitorMode → List RdpHead → List RdpHead →
    List RdpHead × List RdpHead × List Bool
  | [], pending, movePending => (pending, movePending, [])
  | mode :: rest, pending, movePending =>
    match findRemove mode pending with
    | some r =>
      let t := startLayoutChange rest r.2 (r.1 :: movePending)
      (t.1, t.2.1, true :: t.2.2)
    | none =>
      let t := startLayoutChange rest pending movePending
      (t.1, t.2.1, false :: t.2.2)

/-- Size-mode match of the best-fit scan: same client width, height and
integer output scale. -/
def sizeMatch (a b : RdpMonitorMode) : Bool :=
  decide (a.monitorDef.width = b.monitorDef.width) &&
  decide (a.monitorDef.height = b.monitorDef.height) &&
  decide (a.scale = b.scale)

/-- Position match of the best-fit scan: same client-space origin. -/
def posMatch (a b : RdpMonitorMode) : Bool :=
  decide (a.monitorDef.x = b.monitorDef.x) &&
  decide (a.monitorDef.y = b.monitorDef.y)

/-- The first scan of `disp_set_monitor_layout_change` (lines 293-312):
skip heads whose primary flag differs from the declared monitor's, then
prefer a size match (no mode update needed) over a position match (mode
update flagged).  Returns the chosen head, the update flag, and the pending
list with the chosen head removed. -/
def bestFitFind (mode : RdpMonitorMode) : List RdpHead → Option (RdpHead × Bool × List RdpHead)
  | [] => none
  | h :: t =>
    if h.monitorMode.monitorDef.is_primary ≠ mode.monitorDef.is_primary then
      (bestFitFind mode t).map (fun r => (r.1, r.2.1, h :: r.2.2))
    else if sizeMatch h.monitorMode mode then some (h, false, t)
    else if posMatch h.monitorMode mode then some (h, true, t)
    else (bestFitFind mode t).map (fun r => (r.1, r.2.1, h :: r.2.2))

/-- Head selection of `disp_set_monitor_layout_change`: the best-fit scan,
then the fallback (lines 313-321) that just picks the first remaining
pending head, always flagging a mode update. -/
def selectReuse (mode : RdpMonitorMode) (pending : List RdpHead) :
    Option (RdpHead × Bool × List RdpHead) :=
  match bestFitFind mode pending with
  | some r => some r
  | none =>
    match pending with
    | [] => none
    | h :: t => some (h, true, t)

/-- Embedding of `disp_set_monitor_layout_change` for one monitor mode:
reuse a pending head (updating its stored mode and, when flagged, pushing
scale/mode changes to a bound output) or create a brand-new head.  State
threaded: pending, move-pending, head list (new heads are inserted there
directly by `rdp_head_create`), next head index.  Returns the new state and
the compositor calls emitted. -/
def setLayoutChange (mode : RdpMonitorMode) (pending movePending heads : List RdpHead)
    (headIndex : ℕ) :
    List RdpHead × List RdpHead × List RdpHead × ℕ × List MutationCall :=
  match selectReuse mode pending with
  | some r =>
    let h := r.1
    let upd := r.2.1
    let rest := r.2.2
    let calls :=
      if upd then
        match h.output with
        | some o =>
          (if o.scale ≠ mode.scale then
            [MutationCall.outputDisable h.index,
             MutationCall.outputSetScale h.index mode.scale,
             MutationCall.outputEnable h.index]
          else []) ++
          [MutationCall.outputSetMode h.index mode.monitorDef.width mode.monitorDef.height]
        | none => []
      else []
    let h2 : RdpHead :=
      { h with
        monitorMode := mode
        output := if upd then h.output.map (fun o => { o with scale := mode.scale })
                  else h.output }
    (rest, h2 :: movePending, heads, headIndex, calls)
  | none =>
    let nh : RdpHead := { index := headIndex, monitorMode := mode, output := none }
    (pending, movePending, nh :: heads, headIndex + 1, [MutationCall.createHead headIndex])

/-- The per-monitor loop of `rdp_disp_handle_adjust_monitor_layout`
(lines 902-908): every monitor whose done bit is unset goes through
`setLayoutChange`. -/
def setLayoutLoop : List (RdpMonitorMode × Bool) → List RdpHead → List RdpHead →
    List RdpHead → ℕ → List RdpHead × List RdpHead × List RdpHead × ℕ × List MutationCall
  | [], pending, movePending, heads, headIndex => (pending, movePending, heads, headIndex, [])
  | (mode, d) :: rest, pending, movePending, heads, headIndex =>
    if d then setLayoutLoop rest pending movePending heads headIndex
    else
      let s := setLayoutChange mode pending movePending heads headIndex
      let t := setLayoutLoop rest s.1 s.2.1 s.2.2.1 s.2.2.2.1
      (t.1, t.2.1, t.2.2.1, t.2.2.2.1, s.2.2.2.2 ++ t.2.2.2.2)

/-- The commit walk over the move-pending list in
`disp_end_monitor_layout_change` (lines 229-248): each head is moved to the
front of the head list; a head with a bound output gets a position-move
notification (`weston_output_move`) to its weston rectangle origin,
unconditionally. -/
def commitMovePending : List RdpHead → List RdpHead → List RdpHead × List MutationCall
  | [], heads => (heads, [])
  | h :: t, heads =>
    let h2 :=
      { h with output := h.output.map (fun o =>
          { o with x := h.monitorMode.rectWeston.x, y := h.monitorMode.rectWeston.y }) }
    let r := commitMovePending t (h2 :: heads)
    (r.1,
     (match h.output with
      | some _ => [MutationCall.outputMove h.index h.monitorMode.rectWeston.x
                     h.monitorMode.rectWeston.y]
      | none => []) ++ r.2)

/-- The assert sequence of `disp_end_monitor_layout_change` on the final
head list (lines 260-275), as one boolean: the head list must be non-empty,
and every primary head must sit at client origin with no second primary
seen.  Note the loop never checks that a primary exists at all. -/
def primaryAssertLoop : List RdpHead → Bool → Bool
  | [], _ => true
  | h :: t, found =>
    if h.monitorMode.monitorDef.is_primary then
      decide (h.monitorMode.monitorDef.x = 0) &&
      decide (h.monitorMode.monitorDef.y = 0) &&
      !found &&
      primaryAssertLoop t true
    else primaryAssertLoop t found

/-- All commit-time invariant assertions of `disp_end_monitor_layout_change`
combined (true = no assertion fires). -/
def commitChecks (heads : List RdpHead) : Bool :=
  !heads.isEmpty && primaryAssertLoop heads false

/-- Number of heads flagged primary. -/
def countPrimaryHeads (heads : List RdpHead) : ℕ :=
  heads.countP (fun h => h.monitorMode.monitorDef.is_primary)

/-- Embedding of `disp_end_monitor_layout_change`: commit move-pending heads
into the head list (emitting position moves for bound outputs), destroy
every head still pending, and evaluate the commit assertions. -/
def endLayoutChange (pending movePending heads : List RdpHead) :
    List RdpHead × List MutationCall × Bool :=
  let c := commitMovePending movePending heads
  (c.1, c.2 ++ pending.map (fun h => MutationCall.destroyHead h.index), commitChecks c.1)

/-- Result of one full layout message (`rdp_disp_handle_adjust_monitor_layout`):
final registry, emitted compositor calls, the boolean returned to the
protocol layer, and whether the commit assertions held. -/
structure AdjustResult where
  mp : MonitorPrivate
  calls : List MutationCall
  success : Bool
  commitOk : Bool
deriving DecidableEq, Repr

/-- Builds the initial `rdp_monitor_mode` for a declared monitor (the first
loop of `rdp_disp_handle_adjust_monitor_layout`, lines 888-893).  The
`rectWeston` field is uninitialized in C and always overwritten by the
validator before use; it starts as zeros here. -/
def initMode (cfg : MonitorConfig) (mon : RdpMonitor) : RdpMonitorMode :=
  { monitorDef := mon
    scale := disp_get_output_scale_from_monitor cfg mon
    clientScale := disp_get_client_scale_from_monitor cfg mon
    rectWeston := ⟨0, 0, 0, 0⟩ }

/-- Embedding of `rdp_disp_handle_adjust_monitor_layout` (lines 878-914).
Note that the C function initializes `success = true` and never assigns
`false` on any path, including validation failure; the model reproduces
this faithfully. -/
def rdp_disp_handle_adjust_monitor_layout (cfg : MonitorConfig) (mp : MonitorPrivate)
    (monitors : List RdpMonitor) : AdjustResult :=
  let modes0 := monitors.map (initMode cfg)
  match disp_monitor_validate_and_compute_layout modes0 with
  | none => { mp := mp, calls := [], success := true, commitOk := true }
  | some arrModes =>
    let modes := arrModes.2
    let st := startLayoutChange modes mp.heads []
    let sl := setLayoutLoop (modes.zip st.2.2) st.1 st.2.1 [] mp.headIndex
    let fin := endLayoutChange sl.1 sl.2.1 sl.2.2.1
    { mp := { heads := fin.1, headIndex := sl.2.2.2.1 }
      calls := sl.2.2.2.2 ++ fin.2.1
      success := true
      commitOk := fin.2.2 }

/-- Point containment in a monitor's client-space rectangle
(`pixman_region32_contains_point` on `regionClient`: the box is
`[x, x+width) × [y, y+height)`). -/
def regionContains (m : RdpMonitor) (px py : ℤ) : Bool :=
  decide (m.x ≤ px) && decide (px < m.x + m.width) &&
  decide (m.y ≤ py) && decide (py < m.y + m.height)

/-- Embedding of `to_weston_coordinate` (client space to weston space):
scan the head list for the head whose client region contains the point,
translate to a monitor-relative offset, scale by `1 / clientScale` with a
C float-to-int truncation, and translate by the weston rectangle origin. -/
def to_weston_coordinate : List RdpHead → ℤ → ℤ → Option (RdpHead × ℤ × ℤ)
  | [], _, _ => none
  | h :: t, px, py =>
    if regionContains h.monitorMode.monitorDef px py then
      some (h,
        ftrunc (((px - h.monitorMode.monitorDef.x : ℤ) : ℚ) *
          (1 / h.monitorMode.clientScale)) + h.monitorMode.rectWeston.x,
        ftrunc (((py - h.monitorMode.monitorDef.y : ℤ) : ℚ) *
          (1 / h.monitorMode.clientScale)) + h.monitorMode.rectWeston.y)
    else to_weston_coordinate t px py

/-- Embedding of `to_client_coordinate` (weston space to client space) for
the single head driving an output: translate by the weston rectangle
origin, scale by `clientScale` with a C float-to-int truncation, and
translate by the client rectangle origin. -/
def to_client_coordinate (h : RdpHead) (lx ly : ℤ) : ℤ × ℤ :=
  (ftrunc (((lx - h.monitorMode.rectWeston.x : ℤ) : ℚ) * h.monitorMode.clientScale) +
     h.monitorMode.monitorDef.x,
   ftrunc (((ly - h.monitorMode.rectWeston.y : ℤ) : ℚ) * h.monitorMode.clientScale) +
     h.monitorMode.monitorDef.y)

/-! ## Shared concrete fixtures -/

/-- All-zero DPI attributes (physical size, orientation and scale factors
unused by the code paths under test). -/
def attrs0 : MonitorAttributes := ⟨0, 0, 0, 0, 0⟩

/-- A 1920x1080 monitor at client position `(x, 0)` with a chosen primary
flag. -/
def monAt (x : ℤ) (p : Bool) : RdpMonitor := ⟨x, 0, 1920, 1080, p, attrs0⟩

/-- Server configuration with all DPI support disabled. -/
def cfgPlain : MonitorConfig := ⟨false, 0, false, false⟩

/-- Server configuration with fractional hi-DPI support enabled and no
debug override. -/
def cfgFractional : MonitorConfig := ⟨true, 0, true, false⟩

/-! ## C1: primary-count validation -/

/-- Auxiliary for C1: once at most one primary has been seen, a mode list
containing enough further primaries to reach a total of two makes the
validation loop fail. -/
theorem primaryScan_false_of_two (ms : List RdpMonitorMode) :
    ∀ c : ℕ, c ≤ 1 → 2 ≤ c + countPrimaries ms → primaryScan ms c = false := by
  induction ms with
  | nil =>
    intro c hc h2
    simp [countPrimaries] at h2
    omega
  | cons m rest ih =>
    intro c hc h2
    by_cases hp : m.monitorDef.is_primary = true
    · have hcount : countPrimaries (m :: rest) = countPrimaries rest + 1 := by
        simp [countPrimaries, List.countP_cons, hp]
      by_cases hc1 : c + 1 > 1
      · simp [primaryScan, hp, hc1]
      · by_cases horigin : m.monitorDef.x ≠ 0 ∨ m.monitorDef.y ≠ 0
        · simp [primaryScan, hp, hc1, horigin]
        · have hrec := ih (c + 1) (by omega) (by omega)
          simp [primaryScan, hp, hc1, horigin, hrec]
    · have hp' : m.monitorDef.is_primary = false := by
        revert hp; cases m.monitorDef.is_primary <;> simp
      have hcount : countPrimaries (m :: rest) = countPrimaries rest := by
        simp [countPrimaries, List.countP_cons, hp']
      have hrec := ih c hc (by omega)
      simp [primaryScan, hp', hrec]

/-- C1 (amended): a topology carrying two or more primary monitors is
always rejected by `disp_monitor_validate_and_compute_layout`. -/
theorem C1_amended (ms : List RdpMonitorMode) (h : 2 ≤ countPrimaries ms) :
    disp_monitor_validate_and_compute_layout ms = none := by
  have hscan : primaryScan ms 0 = false :=
    primaryScan_false_of_two ms 0 (by omega) (by omega)
  simp [disp_monitor_validate_and_compute_layout, hscan]

/-- Witness for C1 (amended): two primaries at concrete positions are
rejected. -/
theorem C1_amended_witness :
    2 ≤ countPrimaries [initMode cfgPlain (monAt 0 true), initMode cfgPlain (monAt 1920 true)] ∧
    disp_monitor_validate_and_compute_layout
      [initMode cfgPlain (monAt 0 true), initMode cfgPlain (monAt 1920 true)] = none :=
  ⟨by decide,
   C1_amended [initMode cfgPlain (monAt 0 true), initMode cfgPlain (monAt 1920 true)] (by decide)⟩

/-- Counterexample for C1 as stated: a topology with zero primaries (count
0 ≠ 1) is accepted by the validator, because the loop only rejects when the
running primary count exceeds one and never checks that a primary exists. -/
theorem C1_counterexample :
    countPrimaries [initMode cfgPlain (monAt 0 false)] = 0 ∧
    (disp_monitor_validate_and_compute_layout [initMode cfgPlain (monAt 0 false)]).isSome = true := by
  decide

/-! ## C2: failure reporting of the layout handler -/

/-- C2 (code bug): for a topology rejected by validation (here: two
primaries), the handler leaves the head registry untouched and emits no
compositor call — but reports `success = true` to the protocol layer, on
the `success = true; goto exit` path of the validation-failure branch. -/
theorem C2_code_bug :
    disp_monitor_validate_and_compute_layout
      ([monAt 0 true, monAt 1920 true].map (initMode cfgPlain)) = none ∧
    rdp_disp_handle_adjust_monitor_layout cfgPlain
      ⟨[⟨7, initMode cfgPlain (monAt 0 true), some ⟨0, 0, 1⟩⟩], 8⟩
      [monAt 0 true, monAt 1920 true] =
      { mp := ⟨[⟨7, initMode cfgPlain (monAt 0 true), some ⟨0, 0, 1⟩⟩], 8⟩
        calls := []
        success := true
        commitOk := true } := by
  decide

/-! ## C4: resolved output scale -/

/-- A primary 1920x1080 monitor at the origin with the given
`desktopScaleFactor`. -/
def monDsf (n : ℕ) : RdpMonitor := ⟨0, 0, 1920, 1080, true, ⟨0, 0, 0, n, 0⟩⟩

/-- C4 (code bug evaluation): with fractional hi-DPI enabled and a
`desktopScaleFactor` of 50, the resolved client scale is 1/2 and the
resolved output scale is 0 — `(int)clientScale` with no minimum clamp —
contradicting the spec's `outputScale ≥ 1`.  Downstream,
`disp_monitor_validate_and_compute_layout` divides monitor sizes by this
scale, which is undefined behaviour (division by zero) in the C program. -/
theorem C4_code_bug :
    disp_get_client_scale_from_monitor cfgFractional (monDsf 50) = 1 / 2 ∧
    disp_get_output_scale_from_monitor cfgFractional (monDsf 50) = 0 := by
  constructor
  · simp [disp_get_client_scale_from_monitor, cfgFractional, monDsf]
    norm_num
  · simp [disp_get_output_scale_from_monitor, disp_get_client_scale_from_monitor,
      cfgFractional, monDsf, ftrunc]
    norm_num

/-! ## C8: commit-time invariant assertions -/

/-- Auxiliary for C8: the commit-time primary walk fails whenever the heads
seen so far plus the list ahead contain two primaries in total. -/
theorem primaryAssertLoop_false_of_two (heads : List RdpHead) :
    ∀ found : Bool, 2 ≤ (cond found 1 0) + countPrimaryHeads heads →
      primaryAssertLoop heads found = false := by
  induction heads with
  | nil =>
    intro found h2
    cases found <;> simp [countPrimaryHeads] at h2
  | cons h t ih =>
    intro found h2
    by_cases hp : h.monitorMode.monitorDef.is_primary = true
    · have hcount : countPrimaryHeads (h :: t) = countPrimaryHeads t + 1 := by
        simp [countPrimaryHeads, List.countP_cons, hp]
      cases found with
      | true => simp [primaryAssertLoop, hp]
      | false =>
        have hrec := ih true (by simp at h2 ⊢; omega)
        simp [primaryAssertLoop, hp, hrec]
    · have hp' : h.monitorMode.monitorDef.is_primary = false := by
        revert hp; cases h.monitorMode.monitorDef.is_primary <;> simp
      have hcount : countPrimaryHeads (h :: t) = countPrimaryHeads t := by
        simp [countPrimaryHeads, List.countP_cons, hp']
      have hrec := ih found (by omega)
      simp [primaryAssertLoop, hp', hrec]

/-- C8 (amended): at commit, an empty final head list and a multiple-primary
final head list each make the assertion sequence of
`disp_end_monitor_layout_change` fire; the absence of any primary is not
among the checked conditions (see `C8_counterexample`). -/
theorem C8_amended (heads : List RdpHead) :
    (heads = [] → commitChecks heads = false) ∧
    (2 ≤ countPrimaryHeads heads → commitChecks heads = false) := by
  constructor
  · intro h
    subst h
    simp [commitChecks]
  · intro h2
    have hloop := primaryAssertLoop_false_of_two heads false (by simpa using h2)
    simp [commitChecks, hloop]

/-- Witness for C8 (amended): the assertions fire on the empty head list
and on a two-primary head list. -/
theorem C8_amended_witness :
    commitChecks [] = false ∧
    commitChecks [⟨0, initMode cfgPlain (monAt 0 true), none⟩,
                  ⟨1, initMode cfgPlain (monAt 0 true), none⟩] = false :=
  ⟨(C8_amended []).1 rfl,
   (C8_amended [⟨0, initMode cfgPlain (monAt 0 true), none⟩,
                ⟨1, initMode cfgPlain (monAt 0 true), none⟩]).2 (by decide)⟩

/-- Counterexample for C8 as stated: a non-empty head list with zero
primary heads passes every commit assertion — the "no primary head"
violation is never detected at commit. -/
theorem C8_counterexample :
    countPrimaryHeads [⟨0, initMode cfgPlain (monAt 0 false), none⟩] = 0 ∧
    commitChecks [⟨0, initMode cfgPlain (monAt 0 false), none⟩] = true := by
  decide

/-! ## C10: best-fit matching and the primary flag -/

/-- C10: the size-match and position-match branches of the best-fit scan
can only select a pending head whose primary flag equals the declared
monitor's (the scan skips mismatching heads before either test), while the
fallback branch selects the first remaining pending head outright,
independent of every field including the primary flag. -/
theorem C10_best_fit (mode : RdpMonitorMode) (pending : List RdpHead) :
    (∀ h upd rest, bestFitFind mode pending = some (h, upd, rest) →
      h.monitorMode.monitorDef.is_primary = mode.monitorDef.is_primary) ∧
    (bestFitFind mode pending = none →
      selectReuse mode pending = pending.head?.map (fun h => (h, true, pending.tail))) := by
  constructor
  · induction pending with
    | nil => intro h upd rest hfind; simp [bestFitFind] at hfind
    | cons p t ih =>
      intro h upd rest hfind
      rw [bestFitFind] at hfind
      by_cases hne : p.monitorMode.monitorDef.is_primary ≠ mode.monitorDef.is_primary
      · rw [if_pos hne] at hfind
        rcases Option.map_eq_some'.mp hfind with ⟨r, hr, heq⟩
        have : h = r.1 := by
          have := congrArg Prod.fst heq
          simpa using this.symm
        subst this
        exact ih r.1 r.2.1 r.2.2 (by rw [hr])
      · rw [if_neg hne] at hfind
        have heq : p.monitorMode.monitorDef.is_primary = mode.monitorDef.is_primary := by
          by_contra hc; exact hne hc
        by_cases hsz : sizeMatch p.monitorMode mode = true
        · rw [if_pos hsz] at hfind
          have : h = p := by
            have := congrArg (fun o => o.map Prod.fst) hfind
            simpa using this.symm
          subst this; exact heq
        · rw [if_neg hsz] at hfind
          by_cases hpos : posMatch p.monitorMode mode = true
          · rw [if_pos hpos] at hfind
            have : h = p := by
              have := congrArg (fun o => o.map Prod.fst) hfind
              simpa using this.symm
            subst this; exact heq
          · rw [if_neg hpos] at hfind
            rcases Option.map_eq_some'.mp hfind with ⟨r, hr, heqr⟩
            have : h = r.1 := by
              have := congrArg Prod.fst heqr
              simpa using this.symm
            subst this
            exact ih r.1 r.2.1 r.2.2 (by rw [hr])
  · intro hnone
    cases pending with
    | nil => simp [selectReuse, bestFitFind]
    | cons p t => simp [selectReuse, hnone]

/-- Witness for C10: a monitor whose primary flag differs from the only
pending head's is not matched by the first scan, and the fallback then
selects that very head despite the differing primary flag. -/
theorem C10_best_fit_witness :
    bestFitFind (initMode cfgPlain (monAt 0 true))
      [⟨3, initMode cfgPlain (monAt 500 false), none⟩] = none ∧
    selectReuse (initMode cfgPlain (monAt 0 true))
      [⟨3, initMode cfgPlain (monAt 500 false), none⟩] =
      some (⟨3, initMode cfgPlain (monAt 500 false), none⟩, true, []) := by
  refine ⟨by decide, ?_⟩
  have := (C10_best_fit (initMode cfgPlain (monAt 0 true))
    [⟨3, initMode cfgPlain (monAt 500 false), none⟩]).2 (by decide)
  simpa using this

/-! ## C3: arrangement classification -/

/-- Spec-side adjacency for a horizontal chain: the left monitor's right
edge meets the right monitor's left edge and their vertical spans overlap
as open intervals. -/
def hAdjacent (a b : RdpMonitorMode) : Prop :=
  b.monitorDef.x = a.monitorDef.x + a.monitorDef.width ∧
  max a.monitorDef.y b.monitorDef.y <
    min (a.monitorDef.y + a.monitorDef.height) (b.monitorDef.y + b.monitorDef.height)

/-- Spec-side adjacency for a vertical chain, the transpose of
`hAdjacent`. -/
def vAdjacent (a b : RdpMonitorMode) : Prop :=
  b.monitorDef.y = a.monitorDef.y + a.monitorDef.height ∧
  max a.monitorDef.x b.monitorDef.x <
    min (a.monitorDef.x + a.monitorDef.width) (b.monitorDef.x + b.monitorDef.width)

/-- The running-offset loop of the horizontal connectivity check is
equivalent to the adjacent-pair formulation of the spec. -/
theorem chainHFrom_iff_chain' (rest : List RdpMonitorMode) :
    ∀ prev : RdpMonitorMode,
      chainHFrom (prev.monitorDef.x + prev.monitorDef.width) prev rest = true ↔
        List.Chain' hAdjacent (prev :: rest) := by
  induction rest with
  | nil => intro prev; simp [chainHFrom]
  | cons m t ih =>
    intro prev
    rw [List.chain'_cons]
    constructor
    · intro h
      simp only [chainHFrom, Bool.and_eq_true, decide_eq_true_eq,
        is_line_intersected] at h
      obtain ⟨⟨h1, h2⟩, h3⟩ := h
      rw [h1] at h3
      exact ⟨⟨h1.symm, by simpa using h2⟩, (ih m).mp h3⟩
    · intro h
      obtain ⟨⟨h1, h2⟩, h3⟩ := h
      simp only [chainHFrom, Bool.and_eq_true, decide_eq_true_eq,
        is_line_intersected]
      refine ⟨⟨h1.symm, by simpa [hAdjacent] using h2⟩, ?_⟩
      rw [h1.symm]
      exact (ih m).mpr h3

/-- The running-offset loop of the vertical connectivity check is
equivalent to the adjacent-pair formulation of the spec. -/
theorem chainVFrom_iff_chain' (rest : List RdpMonitorMode)  :
    ∀ prev : RdpMonitorMode,
      chainVFrom (prev.monitorDef.y + prev.monitorDef.height) prev rest = true ↔
        List.Chain' vAdjacent (prev :: rest) := by
  induction rest with
  | nil => intro prev; simp [chainVFrom]
  | cons m t ih =>
    intro prev
    rw [List.chain'_cons]
    constructor
    · intro h
      simp only [chainVFrom, Bool.and_eq_true, decide_eq_true_eq,
        is_line_intersected] at h
      obtain ⟨⟨h1, h2⟩, h3⟩ := h
      rw [h1] at h3
      exact ⟨⟨h1.symm, by simpa using h2⟩, (ih m).mp h3⟩
    · intro h
      obtain ⟨⟨h1, h2⟩, h3⟩ := h
      simp only [chainVFrom, Bool.and_eq_true, decide_eq_true_eq,
        is_line_intersected]
      refine ⟨⟨h1.symm, by simpa [vAdjacent] using h2⟩, ?_⟩
      rw [h1.symm]
      exact (ih m).mpr h3

/-- The code's horizontal connectivity test decides the adjacent-pair
chain property. -/
theorem connectedH_iff_chain' (ms : List RdpMonitorMode) :
    connectedH ms = true ↔ List.Chain' hAdjacent ms := by
  cases ms with
  | nil => simp [connectedH]
  | cons m rest => simpa [connectedH] using chainHFrom_iff_chain' rest m

/-- The code's vertical connectivity test decides the adjacent-pair chain
property. -/
theorem connectedV_iff_chain' (ms : List RdpMonitorMode) :
    connectedV ms = true ↔ List.Chain' vAdjacent ms := by
  cases ms with
  | nil => simp [connectedV]
  | cons m rest => simpa [connectedV] using chainVFrom_iff_chain' rest m

/-- C3: for an accepted topology, the detected arrangement is exactly the
spec's classification — a single monitor is trivially horizontal; with more
monitors, horizontal iff the x-sorted list satisfies the adjacent-pair
contiguity-and-overlap chain, vertical iff that fails and the y-sorted list
satisfies the transposed chain, and complex (still accepted) iff both
fail. -/
theorem C3_arrangement (ms : List RdpMonitorMode) (arr : Arrangement)
    (out : List RdpMonitorMode)
    (hv : disp_monitor_validate_and_compute_layout ms = some (arr, out)) :
    (ms.length = 1 → arr = Arrangement.horizontal) ∧
    (1 < ms.length →
      ((arr = Arrangement.horizontal ↔ List.Chain' hAdjacent (sortByX ms)) ∧
       (arr = Arrangement.vertical ↔
         (¬ List.Chain' hAdjacent (sortByX ms) ∧
          List.Chain' vAdjacent (sortByY (sortByX ms)))) ∧
       (arr = Arrangement.complex ↔
         (¬ List.Chain' hAdjacent (sortByX ms) ∧
          ¬ List.Chain' vAdjacent (sortByY (sortByX ms)))))) := by
  rw [disp_monitor_validate_and_compute_layout] at hv
  by_cases hscan : primaryScan ms 0 = false
  · rw [if_pos hscan] at hv
    exact absurd hv (by simp)
  · rw [if_neg hscan] at hv
    by_cases hlen : 1 < ms.length
    · rw [if_pos hlen] at hv
      by_cases hH : connectedH (sortByX ms) = true
      · rw [if_pos hH] at hv
        have harr : arr = Arrangement.horizontal :=
          ((Prod.mk.injEq _ _ _ _).mp (Option.some.inj hv).symm).1
        subst harr
        refine ⟨fun h1 => rfl, fun _ => ?_⟩
        have hchain := (connectedH_iff_chain' (sortByX ms)).mp hH
        exact ⟨by simp [hchain], by simp [hchain], by simp [hchain]⟩
      · rw [if_neg hH] at hv
        have hnchain : ¬ List.Chain' hAdjacent (sortByX ms) := by
          intro hc
          exact hH ((connectedH_iff_chain' (sortByX ms)).mpr hc)
        by_cases hV : connectedV (sortByY (sortByX ms)) = true
        · rw [if_pos hV] at hv
          have harr : arr = Arrangement.vertical :=
            ((Prod.mk.injEq _ _ _ _).mp (Option.some.inj hv).symm).1
          subst harr
          have hchain := (connectedV_iff_chain' (sortByY (sortByX ms))).mp hV
          exact ⟨fun h1 => absurd h1 (by omega), fun _ =>
            ⟨by simp [hnchain], by simp [hnchain, hchain], by simp [hchain]⟩⟩
        · rw [if_neg hV] at hv
          have harr : arr = Arrangement.complex :=
            ((Prod.mk.injEq _ _ _ _).mp (Option.some.inj hv).symm).1
          subst harr
          have hnchainV : ¬ List.Chain' vAdjacent (sortByY (sortByX ms)) := by
            intro hc
            exact hV ((connectedV_iff_chain' (sortByY (sortByX ms))).mpr hc)
          exact ⟨fun h1 => absurd h1 (by omega), fun _ =>
            ⟨by simp [hnchain], by simp [hnchainV], by simp [hnchain, hnchainV]⟩⟩
    · rw [if_neg hlen] at hv
      have harr : arr = Arrangement.horizontal :=
        ((Prod.mk.injEq _ _ _ _).mp (Option.some.inj hv).symm).1
      subst harr
      exact ⟨fun _ => rfl, fun h => absurd h hlen⟩

/-- Witness for C3: a 1920-wide pair of side-by-side monitors is accepted
and classified, and the classification matches the adjacent-pair chain
reading of the sorted list. -/
theorem C3_arrangement_witness :
    (disp_monitor_validate_and_compute_layout
        [initMode cfgPlain (monAt 0 true), initMode cfgPlain (monAt 1920 false)]).isSome = true ∧
    (1 < ([initMode cfgPlain (monAt 0 true), initMode cfgPlain (monAt 1920 false)] :
        List RdpMonitorMode).length →
      ((Arrangement.horizontal = Arrangement.horizontal ↔
         List.Chain' hAdjacent
           (sortByX [initMode cfgPlain (monAt 0 true), initMode cfgPlain (monAt 1920 false)])) ∧
       (Arrangement.horizontal = Arrangement.vertical ↔
         (¬ List.Chain' hAdjacent
             (sortByX [initMode cfgPlain (monAt 0 true), initMode cfgPlain (monAt 1920 false)]) ∧
          List.Chain' vAdjacent
            (sortByY (sortByX
              [initMode cfgPlain (monAt 0 true), initMode cfgPlain (monAt 1920 false)])))) ∧
       (Arrangement.horizontal = Arrangement.complex ↔
         (¬ List.Chain' hAdjacent
             (sortByX [initMode cfgPlain (monAt 0 true), initMode cfgPlain (monAt 1920 false)]) ∧
          ¬ List.Chain' vAdjacent
             (sortByY (sortByX
               [initMode cfgPlain (monAt 0 true), initMode cfgPlain (monAt 1920 false)])))))) :=
  ⟨by decide,
   (C3_arrangement [initMode cfgPlain (monAt 0 true), initMode cfgPlain (monAt 1920 false)]
     Arrangement.horizontal
     (projUnscaled 0 0 (sortByX [initMode cfgPlain (monAt 0 true), initMode cfgPlain (monAt 1920 false)]))
     (by decide)).2⟩

/-! ## C5: scaled horizontal projection -/

/-- Truncating division commutes with absolute value for a nonpositive
dividend and nonnegative divisor. -/
theorem abs_tdiv_of_nonpos (d s : ℤ) (hd : d ≤ 0) (hs : 0 ≤ s) :
    |Int.tdiv d s| = Int.tdiv |d| s := by
  have h1 : d = -(-d) := by ring
  rw [h1, Int.neg_tdiv, abs_neg, abs_neg,
    abs_of_nonneg (by omega : (0 : ℤ) ≤ -d),
    abs_of_nonneg (Int.tdiv_nonneg (by omega) hs)]

/-- Element-wise description of the scaled horizontal projection: entry `i`
keeps all monitor fields and receives the weston rectangle whose x is the
starting offset plus the sum of the preceding scaled widths, whose y is
`abs((upperLeftY - y) / scale)`, and whose size is the client size divided
by the per-monitor scale. -/
theorem projScaledH_getElem (ulY : ℤ) (ms : List RdpMonitorMode) :
    ∀ (off : ℤ) (i : ℕ) (m : RdpMonitorMode), ms[i]? = some m →
      (projScaledH ulY off ms)[i]? = some
        { m with rectWeston :=
            ⟨off + ((ms.take i).map (fun k => Int.tdiv k.monitorDef.width k.scale)).sum,
             |Int.tdiv (ulY - m.monitorDef.y) m.scale|,
             Int.tdiv m.monitorDef.width m.scale,
             Int.tdiv m.monitorDef.height m.scale⟩ } := by
  induction ms with
  | nil => intro off i m hm; simp at hm
  | cons a rest ih =>
    intro off i m hm
    cases i with
    | zero =>
      rw [List.getElem?_cons_zero] at hm
      obtain rfl : a = m := Option.some.inj hm
      simp [projScaledH]
    | succ n =>
      rw [List.getElem?_cons_succ] at hm
      have := ih (off + Int.tdiv a.monitorDef.width a.scale) n m hm
      rw [projScaledH]
      rw [List.getElem?_cons_succ, this]
      congr 2
      rw [List.take_succ_cons]
      simp [add_assoc]

/-- C5: with scaling in effect and a horizontal arrangement, the projection
walks monitors in sorted x order giving each a local rectangle of size
`client size / outputScale`, with x the running sum of preceding local
widths and y `|upperLeftY - y| / outputScale`; and the concrete
three-monitor 1920x1080 row at x = 0, 1920, 3840 is accepted as horizontal
with local rectangles tiling left-to-right, total local width 5760. -/
theorem C5_projection :
    (∀ (ulY : ℤ) (ms : List RdpMonitorMode),
      (∀ k ∈ ms, 1 ≤ k.scale ∧ ulY ≤ k.monitorDef.y) →
      ∀ (i : ℕ) (m : RdpMonitorMode), ms[i]? = some m →
        (projScaledH ulY 0 ms)[i]? = some
          { m with rectWeston :=
              ⟨((ms.take i).map (fun k => Int.tdiv k.monitorDef.width k.scale)).sum,
               Int.tdiv |ulY - m.monitorDef.y| m.scale,
               Int.tdiv m.monitorDef.width m.scale,
               Int.tdiv m.monitorDef.height m.scale⟩ }) ∧
    ((disp_monitor_validate_and_compute_layout
        [initMode cfgPlain (monAt 0 true), initMode cfgPlain (monAt 1920 false),
         initMode cfgPlain (monAt 3840 false)]).map
        (fun r => (r.1, r.2.map (fun m => m.rectWeston))) =
      some (Arrangement.horizontal,
        [⟨0, 0, 1920, 1080⟩, ⟨1920, 0, 1920, 1080⟩, ⟨3840, 0, 1920, 1080⟩]) ∧
     ((disp_monitor_validate_and_compute_layout
        [initMode cfgPlain (monAt 0 true), initMode cfgPlain (monAt 1920 false),
         initMode cfgPlain (monAt 3840 false)]).map
        (fun r => (r.2.map (fun m => m.rectWeston.width)).sum) = some 5760)) := by
  refine ⟨?_, by decide, by decide⟩
  intro ulY ms hbound i m hm
  have hmem : m ∈ ms := List.getElem?_mem hm
  obtain ⟨hs, hy⟩ := hbound m hmem
  have := projScaledH_getElem ulY ms 0 i m hm
  rw [this]
  congr 2
  rw [abs_tdiv_of_nonpos (ulY - m.monitorDef.y) m.scale (by omega) (by omega)]
  simp

/-- A scale-2 1920x1080 mode at client x offset `x`, used to exercise the
scaled projection on concrete data. -/
def modeS2 (x : ℤ) (p : Bool) : RdpMonitorMode :=
  ⟨⟨x, 0, 1920, 1080, p, attrs0⟩, 2, 2, ⟨0, 0, 0, 0⟩⟩

/-- Witness for C5: the general projection formula applied to a concrete
two-monitor list with per-monitor scale 2. -/
theorem C5_projection_witness :
    (projScaledH 0 0 [modeS2 0 true, modeS2 1920 false])[1]? = some
      { modeS2 1920 false with
        rectWeston :=
          ⟨((([modeS2 0 true, modeS2 1920 false].take 1).map
              (fun k => Int.tdiv k.monitorDef.width k.scale)).sum),
           Int.tdiv |(0 : ℤ) - (modeS2 1920 false).monitorDef.y| (modeS2 1920 false).scale,
           Int.tdiv (modeS2 1920 false).monitorDef.width (modeS2 1920 false).scale,
           Int.tdiv (modeS2 1920 false).monitorDef.height (modeS2 1920 false).scale⟩ } :=
  (C5_projection).1 0 [modeS2 0 true, modeS2 1920 false]
    (by intro k hk; fin_cases hk <;> exact ⟨by norm_num [modeS2], by norm_num [modeS2]⟩)
    1 (modeS2 1920 false) (by rfl)

/-! ## C6: complex placement disables scaling -/

/-- C6: when a multi-monitor topology that uses scaling is classified as a
complex placement, the whole layout is projected by the unscaled fallback:
every committed mode has `scale = 1`, `clientScale = 1`, and a weston
rectangle equal to its client rectangle translated by the absolute
upper-left corner on both axes. -/
theorem C6_complex_fallback (ms out : List RdpMonitorMode)
    (hlen : 1 < ms.length) (_hscaling : isScalingUsed ms = true)
    (hv : disp_monitor_validate_and_compute_layout ms = some (Arrangement.complex, out)) :
    out = projUnscaled (upperLeftX ms) (upperLeftY ms) (sortByY (sortByX ms)) ∧
    ∀ m ∈ out, m.scale = 1 ∧ m.clientScale = 1 ∧
      m.rectWeston.x = m.monitorDef.x + |upperLeftX ms| ∧
      m.rectWeston.y = m.monitorDef.y + |upperLeftY ms| ∧
      m.rectWeston.width = m.monitorDef.width ∧
      m.rectWeston.height = m.monitorDef.height := by
  rw [disp_monitor_validate_and_compute_layout] at hv
  by_cases hscan : primaryScan ms 0 = false
  · rw [if_pos hscan] at hv; exact absurd hv (by simp)
  · rw [if_neg hscan, if_pos hlen] at hv
    by_cases hH : connectedH (sortByX ms) = true
    · rw [if_pos hH] at hv
      exact absurd ((Prod.mk.injEq _ _ _ _).mp (Option.some.inj hv)).1 (by simp)
    · rw [if_neg hH] at hv
      by_cases hV : connectedV (sortByY (sortByX ms)) = true
      · rw [if_pos hV] at hv
        exact absurd ((Prod.mk.injEq _ _ _ _).mp (Option.some.inj hv)).1 (by simp)
      · rw [if_neg hV] at hv
        have hout : out = projUnscaled (upperLeftX ms) (upperLeftY ms) (sortByY (sortByX ms)) :=
          ((Prod.mk.injEq _ _ _ _).mp (Option.some.inj hv)).2.symm
        refine ⟨hout, ?_⟩
        intro m hmem
        rw [hout] at hmem
        rcases List.mem_map.mp hmem with ⟨k, _, hk⟩
        rw [← hk]
        simp [projUnscaled]

/-- An L-shaped three-monitor declaration with the primary monitor scaled
by 2 (client scale 2.0): used to exercise the complex-placement path. -/
def modesL : List RdpMonitorMode :=
  [⟨⟨0, 0, 1000, 1000, true, attrs0⟩, 2, 2, ⟨0, 0, 0, 0⟩⟩,
   ⟨⟨1000, 0, 1000, 1000, false, attrs0⟩, 1, 1, ⟨0, 0, 0, 0⟩⟩,
   ⟨⟨0, 1000, 1000, 1000, false, attrs0⟩, 1, 1, ⟨0, 0, 0, 0⟩⟩]

/-- Witness for C6: the L-shaped scaled topology is accepted as a complex
placement and every resulting mode carries identity scales and a translated
client rectangle. -/
theorem C6_complex_fallback_witness :
    disp_monitor_validate_and_compute_layout modesL =
      some (Arrangement.complex,
        projUnscaled (upperLeftX modesL) (upperLeftY modesL) (sortByY (sortByX modesL))) ∧
    ∀ m ∈ projUnscaled (upperLeftX modesL) (upperLeftY modesL) (sortByY (sortByX modesL)),
      m.scale = 1 ∧ m.clientScale = 1 ∧
      m.rectWeston.x = m.monitorDef.x + |upperLeftX modesL| ∧
      m.rectWeston.y = m.monitorDef.y + |upperLeftY modesL| ∧
      m.rectWeston.width = m.monitorDef.width ∧
      m.rectWeston.height = m.monitorDef.height :=
  ⟨by decide,
   (C6_complex_fallback modesL
     (projUnscaled (upperLeftX modesL) (upperLeftY modesL) (sortByY (sortByX modesL)))
     (by decide) (by decide) (by decide)).2⟩

/-! ## C9: fractional scale and coordinate round trip -/

/-- On nonnegative rationals the C truncation is the floor. -/
theorem ftrunc_eq_floor (q : ℚ) (hq : 0 ≤ q) : ftrunc q = ⌊q⌋ := by
  rw [ftrunc, if_neg (not_lt.mpr hq)]

/-- Core arithmetic of the 1.5x round trip: dividing a nonnegative offset
by 3/2 with truncation and multiplying back by 3/2 with truncation loses at
most one unit. -/
theorem roundtrip_three_halves (d : ℤ) (hd : 0 ≤ d) :
    d - 1 ≤ ftrunc ((ftrunc ((d : ℚ) * (1 / (3 / 2))) : ℚ) * (3 / 2)) ∧
    ftrunc ((ftrunc ((d : ℚ) * (1 / (3 / 2))) : ℚ) * (3 / 2)) ≤ d := by
  have h23 : (1 : ℚ) / (3 / 2) = 2 / 3 := by norm_num
  rw [h23]
  have hdq : (0 : ℚ) ≤ (d : ℚ) := by exact_mod_cast hd
  have hq : (0 : ℚ) ≤ (d : ℚ) * (2 / 3) := by positivity
  rw [ftrunc_eq_floor _ hq]
  have h1 : ((⌊(d : ℚ) * (2 / 3)⌋ : ℤ) : ℚ) ≤ (d : ℚ) * (2 / 3) := Int.floor_le _
  have h2 : (d : ℚ) * (2 / 3) < (⌊(d : ℚ) * (2 / 3)⌋ : ℚ) + 1 := Int.lt_floor_add_one _
  have hl0 : 0 ≤ ⌊(d : ℚ) * (2 / 3)⌋ := Int.floor_nonneg.mpr hq
  have hq2 : (0 : ℚ) ≤ ((⌊(d : ℚ) * (2 / 3)⌋ : ℤ) : ℚ) * (3 / 2) := by
    have : ((0 : ℤ) : ℚ) ≤ ((⌊(d : ℚ) * (2 / 3)⌋ : ℤ) : ℚ) := by exact_mod_cast hl0
    positivity
  rw [ftrunc_eq_floor _ hq2]
  have h5 : ((⌊((⌊(d : ℚ) * (2 / 3)⌋ : ℤ) : ℚ) * (3 / 2)⌋ : ℤ) : ℚ) ≤
      ((⌊(d : ℚ) * (2 / 3)⌋ : ℤ) : ℚ) * (3 / 2) := Int.floor_le _
  have h6 : ((⌊(d : ℚ) * (2 / 3)⌋ : ℤ) : ℚ) * (3 / 2) <
      ((⌊((⌊(d : ℚ) * (2 / 3)⌋ : ℤ) : ℚ) * (3 / 2)⌋ : ℤ) : ℚ) + 1 := Int.lt_floor_add_one _
  have h3 : 3 * ⌊(d : ℚ) * (2 / 3)⌋ ≤ 2 * d := by
    have : (3 : ℚ) * (⌊(d : ℚ) * (2 / 3)⌋ : ℚ) ≤ 2 * (d : ℚ) := by linarith
    exact_mod_cast this
  have h4 : 2 * d < 3 * ⌊(d : ℚ) * (2 / 3)⌋ + 3 := by
    have : (2 : ℚ) * (d : ℚ) < 3 * (⌊(d : ℚ) * (2 / 3)⌋ : ℚ) + 3 := by linarith
    exact_mod_cast this
  have h7 : 2 * ⌊((⌊(d : ℚ) * (2 / 3)⌋ : ℤ) : ℚ) * (3 / 2)⌋ ≤ 3 * ⌊(d : ℚ) * (2 / 3)⌋ := by
    have : (2 : ℚ) * (⌊((⌊(d : ℚ) * (2 / 3)⌋ : ℤ) : ℚ) * (3 / 2)⌋ : ℚ) ≤
        3 * (⌊(d : ℚ) * (2 / 3)⌋ : ℚ) := by linarith
    exact_mod_cast this
  have h8 : 3 * ⌊(d : ℚ) * (2 / 3)⌋ <
      2 * ⌊((⌊(d : ℚ) * (2 / 3)⌋ : ℤ) : ℚ) * (3 / 2)⌋ + 2 := by
    have : (3 : ℚ) * (⌊(d : ℚ) * (2 / 3)⌋ : ℚ) <
        2 * (⌊((⌊(d : ℚ) * (2 / 3)⌋ : ℤ) : ℚ) * (3 / 2)⌋ : ℚ) + 2 := by linarith
    exact_mod_cast this
  omega

/-- C9: a monitor with `desktopScaleFactor = 150` under fractional hi-DPI
resolves to client scale 3/2, and for any point mapped into weston space by
a head with client scale 3/2 (the point therefore lying inside the head's
client region), mapping the result back to client space reproduces each
coordinate within one unit. -/
theorem C9_roundtrip :
    disp_get_client_scale_from_monitor cfgFractional (monDsf 150) = 3 / 2 ∧
    (∀ (h : RdpHead) (px py lx ly : ℤ) (hd : RdpHead),
      h.monitorMode.clientScale = 3 / 2 →
      to_weston_coordinate [h] px py = some (hd, lx, ly) →
      hd = h ∧
      px - 1 ≤ (to_client_coordinate hd lx ly).1 ∧ (to_client_coordinate hd lx ly).1 ≤ px ∧
      py - 1 ≤ (to_client_coordinate hd lx ly).2 ∧ (to_client_coordinate hd lx ly).2 ≤ py) := by
  constructor
  · simp [disp_get_client_scale_from_monitor, cfgFractional, monDsf]
    norm_num
  · intro h px py lx ly hd hcs hw
    rw [to_weston_coordinate] at hw
    by_cases hc : regionContains h.monitorMode.monitorDef px py = true
    · rw [if_pos hc] at hw
      obtain ⟨hhd, hlx, hly⟩ : hd = h ∧
          lx = ftrunc (((px - h.monitorMode.monitorDef.x : ℤ) : ℚ) *
            (1 / h.monitorMode.clientScale)) + h.monitorMode.rectWeston.x ∧
          ly = ftrunc (((py - h.monitorMode.monitorDef.y : ℤ) : ℚ) *
            (1 / h.monitorMode.clientScale)) + h.monitorMode.rectWeston.y := by
        have := Option.some.inj hw
        exact ⟨(congrArg Prod.fst this).symm,
          (congrArg (fun p => p.2.1) this).symm, (congrArg (fun p => p.2.2) this).symm⟩
      subst hhd
      have hpx : 0 ≤ px - hd.monitorMode.monitorDef.x := by
        simp only [regionContains, Bool.and_eq_true, decide_eq_true_eq] at hc
        omega
      have hpy : 0 ≤ py - hd.monitorMode.monitorDef.y := by
        simp only [regionContains, Bool.and_eq_true, decide_eq_true_eq] at hc
        omega
      have hx := roundtrip_three_halves (px - hd.monitorMode.monitorDef.x) hpx
      have hy := roundtrip_three_halves (py - hd.monitorMode.monitorDef.y) hpy
      rw [hcs] at hlx hly
      refine ⟨rfl, ?_, ?_, ?_, ?_⟩ <;>
        simp only [to_client_coordinate, hlx, hly, hcs, add_sub_cancel_right] <;>
        omega
    · rw [if_neg hc] at hw
      exact absurd hw (by simp [to_weston_coordinate])

/-- A head whose resolved client scale is 3/2: client rectangle
1920x1080 at the client origin, weston rectangle 1280x720. -/
def head32 : RdpHead :=
  ⟨0, ⟨⟨0, 0, 1920, 1080, true, attrs0⟩, 1, 3 / 2, ⟨0, 0, 1280, 720⟩⟩, none⟩

/-- Witness for C9: the concrete point (700, 500) inside `head32`'s client
region maps to weston space and back to within one unit on each axis. -/
theorem C9_roundtrip_witness :
    disp_get_client_scale_from_monitor cfgFractional (monDsf 150) = 3 / 2 ∧
    (head32 = head32 ∧
      700 - 1 ≤ (to_client_coordinate head32 466 333).1 ∧
      (to_client_coordinate head32 466 333).1 ≤ 700 ∧
      500 - 1 ≤ (to_client_coordinate head32 466 333).2 ∧
      (to_client_coordinate head32 466 333).2 ≤ 500) := by
  have hw : to_weston_coordinate [head32] 700 500 = some (head32, 466, 333) := by
    rw [to_weston_coordinate, if_pos (by decide)]
    have h1 : ftrunc (((700 - (0 : ℤ)) : ℚ) * (1 / (3 / 2))) = 466 := by
      rw [ftrunc_eq_floor _ (by norm_num)]
      norm_num
    have h2 : ftrunc (((500 - (0 : ℤ)) : ℚ) * (1 / (3 / 2))) = 333 := by
      rw [ftrunc_eq_floor _ (by norm_num)]
      norm_num
    simp only [head32]
    norm_num at h1 h2 ⊢
    exact ⟨h1, h2⟩
  exact ⟨(C9_roundtrip).1, (C9_roundtrip).2 head32 700 500 466 333 head32 rfl hw⟩

/-! ## C7: resubmitting an identical topology -/

/-- When a mode occurs among the pending heads' stored modes, the
`memcmp` scan finds a head carrying exactly that mode and removes it,
leaving a permutation-compatible remainder. -/
theorem findRemove_some (mode : RdpMonitorMode) (pending : List RdpHead)
    (hmem : mode ∈ pending.map RdpHead.monitorMode) :
    ∃ h rest, findRemove mode pending = some (h, rest) ∧
      h.monitorMode = mode ∧
      (h :: rest).Perm pending ∧
      rest.map RdpHead.monitorMode = (pending.map RdpHead.monitorMode).erase mode := by
  induction pending with
  | nil => simp at hmem
  | cons p t ih =>
    by_cases hp : p.monitorMode = mode
    · refine ⟨p, t, ?_, hp, List.Perm.refl _, ?_⟩
      · rw [findRemove, if_pos hp]
      · rw [List.map_cons, hp, List.erase_cons_head]
    · rw [List.map_cons] at hmem
      have hmem2 : mode ∈ t.map RdpHead.monitorMode := by
        rcases List.mem_cons.mp hmem with h1 | h1
        · exact absurd h1.symm hp
        · exact h1
      rcases ih hmem2 with ⟨g, rest, hfind, hgm, hperm, hmap⟩
      refine ⟨g, p :: rest, ?_, hgm, ?_, ?_⟩
      · rw [findRemove, if_neg hp, hfind]
        rfl
      · exact List.Perm.trans (List.Perm.swap p g rest) (hperm.cons p)
      · rw [List.map_cons, List.map_cons, hmap,
          List.erase_cons_tail (by simpa using hp)]

/-- When the pending heads' stored modes are a permutation of the submitted
mode list, the fast-match pass of `disp_start_monitor_layout_change`
matches every monitor: nothing stays pending, every done flag is set, and
the move-pending list holds exactly the previous heads (plus whatever was
already move-pending). -/
theorem startLayoutChange_all_matched (modes : List RdpMonitorMode) :
    ∀ (pending movePending : List RdpHead),
      (pending.map RdpHead.monitorMode).Perm modes →
      (startLayoutChange modes pending movePending).1 = [] ∧
      (startLayoutChange modes pending movePending).2.2 =
        List.replicate modes.length true ∧
      (startLayoutChange modes pending movePending).2.1.Perm (pending ++ movePending) := by
  induction modes with
  | nil =>
    intro pending movePending hperm
    have hp : pending = [] := List.map_eq_nil_iff.mp (List.Perm.eq_nil hperm)
    subst hp
    simp [startLayoutChange]
  | cons mode rest ih =>
    intro pending movePending hperm
    have hmem : mode ∈ pending.map RdpHead.monitorMode :=
      hperm.mem_iff.mpr (by simp)
    rcases findRemove_some mode pending hmem with ⟨h, r, hfind, _, hpermHead, hmap⟩
    have hpermRest : (r.map RdpHead.monitorMode).Perm rest := by
      rw [hmap]
      have herase := hperm.erase mode
      simpa using herase
    rcases ih r (h :: movePending) hpermRest with ⟨h1, h2, h3⟩
    simp only [startLayoutChange, hfind]
    refine ⟨h1, by simp [h2, List.replicate_succ], ?_⟩
    refine List.Perm.trans h3 ?_
    refine List.Perm.trans List.perm_middle ?_
    exact hpermHead.append_right movePending

/-- When every done bit is set, the per-monitor loop of the handler is a
no-op: no state change and no compositor call. -/
theorem setLayoutLoop_all_done (modes : List RdpMonitorMode) :
    ∀ (pending movePending heads : List RdpHead) (hi : ℕ),
      setLayoutLoop (modes.zip (List.replicate modes.length true))
          pending movePending heads hi =
        (pending, movePending, heads, hi, []) := by
  induction modes with
  | nil => intro p mp hs hi; simp [setLayoutLoop]
  | cons m rest ih =>
    intro p mp hs hi
    rw [List.length_cons, List.replicate_succ, List.zip_cons_cons, setLayoutLoop,
      if_pos rfl]
    exact ih p mp hs hi

/-- The commit walk emits only position-move notifications, emits nothing
at all when no committed head has a bound output, and moves each head (with
its stored mode and index intact) into the head list. -/
theorem commitMovePending_spec (movePending : List RdpHead) :
    ∀ heads : List RdpHead,
      (∀ c ∈ (commitMovePending movePending heads).2,
        ∃ i x y, c = MutationCall.outputMove i x y) ∧
      ((∀ h ∈ movePending, h.output = none) →
        (commitMovePending movePending heads).2 = []) ∧
      ((commitMovePending movePending heads).1.map RdpHead.monitorMode).Perm
        (movePending.map RdpHead.monitorMode ++ heads.map RdpHead.monitorMode) ∧
      ((commitMovePending movePending heads).1.map RdpHead.index).Perm
        (movePending.map RdpHead.index ++ heads.map RdpHead.index) := by
  induction movePending with
  | nil =>
    intro heads
    refine ⟨by simp [commitMovePending], fun _ => by simp [commitMovePending], ?_, ?_⟩ <;>
      simp [commitMovePending]
  | cons h t ih =>
    intro heads
    refine ⟨?_, ?_, ?_, ?_⟩
    · intro c hc
      rw [commitMovePending] at hc
      simp only [List.mem_append] at hc
      rcases hc with hc | hc
      · cases houtput : h.output with
        | none => rw [houtput] at hc; simp at hc
        | some o =>
          rw [houtput] at hc
          simp at hc
          exact ⟨h.index, h.monitorMode.rectWeston.x, h.monitorMode.rectWeston.y, hc⟩
      · exact (ih _).1 c hc
    · intro hnone
      have hh : h.output = none := hnone h (by simp)
      rw [commitMovePending, hh]
      exact (ih ({ h with output := none } :: heads)).2.1
        (fun g hg => hnone g (by simp [hg]))
    · rw [commitMovePending]
      refine List.Perm.trans ((ih _).2.2.1) ?_
      simp only [List.map_cons, List.cons_append]
      exact List.perm_middle
    · rw [commitMovePending]
      refine List.Perm.trans ((ih _).2.2.2) ?_
      simp only [List.map_cons, List.cons_append]
      exact List.perm_middle

/-- C7 (amended): resubmitting a topology whose computed modes coincide
with the registry's current modes takes only the fast-match path — no head
is created or destroyed, no scale or mode change is pushed, the registry
keeps the same modes and head indices — and the only compositor calls are
the position-move notifications that commit issues for heads with a bound
output; with no bound output, the call list is empty. -/
theorem C7_amended (cfg : MonitorConfig) (mp : MonitorPrivate) (monitors : List RdpMonitor)
    (arr : Arrangement) (modes : List RdpMonitorMode)
    (hv : disp_monitor_validate_and_compute_layout (monitors.map (initMode cfg)) =
      some (arr, modes))
    (hsame : (mp.heads.map RdpHead.monitorMode).Perm modes) :
    (rdp_disp_handle_adjust_monitor_layout cfg mp monitors).success = true ∧
    (∀ c ∈ (rdp_disp_handle_adjust_monitor_layout cfg mp monitors).calls,
      ∃ i x y, c = MutationCall.outputMove i x y) ∧
    ((∀ h ∈ mp.heads, h.output = none) →
      (rdp_disp_handle_adjust_monitor_layout cfg mp monitors).calls = []) ∧
    ((rdp_disp_handle_adjust_monitor_layout cfg mp monitors).mp.heads.map
        RdpHead.monitorMode).Perm (mp.heads.map RdpHead.monitorMode) ∧
    ((rdp_disp_handle_adjust_monitor_layout cfg mp monitors).mp.heads.map
        RdpHead.index).Perm (mp.heads.map RdpHead.index) ∧
    (rdp_disp_handle_adjust_monitor_layout cfg mp monitors).mp.headIndex = mp.headIndex := by
  rcases startLayoutChange_all_matched modes mp.heads [] hsame with ⟨hs1, hs2, hs3⟩
  rw [List.append_nil] at hs3
  have hmain : rdp_disp_handle_adjust_monitor_layout cfg mp monitors =
      { mp := { heads := (commitMovePending
            (startLayoutChange modes mp.heads []).2.1 []).1, headIndex := mp.headIndex }
        calls := (commitMovePending (startLayoutChange modes mp.heads []).2.1 []).2
        success := true
        commitOk := commitChecks (commitMovePending
          (startLayoutChange modes mp.heads []).2.1 []).1 } := by
    rw [rdp_disp_handle_adjust_monitor_layout, hv]
    simp only [hs2, setLayoutLoop_all_done, hs1, endLayoutChange]
    simp
  rcases commitMovePending_spec (startLayoutChange modes mp.heads []).2.1 [] with
    ⟨hc1, hc2, hc3, hc4⟩
  rw [List.map_nil, List.append_nil] at hc3 hc4
  refine ⟨by rw [hmain], ?_, ?_, ?_, ?_, by rw [hmain]⟩
  · intro c hc
    rw [hmain] at hc
    exact hc1 c hc
  · intro hnone
    rw [hmain]
    exact hc2 (fun h hh => hnone h (hs3.mem_iff.mp hh))
  · rw [hmain]
    exact hc3.trans (hs3.map RdpHead.monitorMode)
  · rw [hmain]
    exact hc4.trans (hs3.map RdpHead.index)

/-- The single primary 1920x1080 monitor used for the C7 counterexample. -/
def monCex : RdpMonitor := monAt 0 true

/-- The resolved mode that the first submission of `monCex` commits. -/
def modeCex : RdpMonitorMode :=
  { monitorDef := monCex, scale := 1, clientScale := 1, rectWeston := ⟨0, 0, 1920, 1080⟩ }

/-- Registry state after `monCex` was committed once and the compositor
bound an output to its head. -/
def mpCex : MonitorPrivate := ⟨[⟨0, modeCex, some ⟨5, 5, 1⟩⟩], 1⟩

/-- Counterexample for C7 as stated: resubmitting the identical topology
(the registry's only head stores exactly the mode the submission computes)
emits a `weston_output_move` call from the commit walk — the second
submission performs one compositor mutation call, not zero. -/
theorem C7_counterexample :
    disp_monitor_validate_and_compute_layout ([monCex].map (initMode cfgPlain)) =
      some (Arrangement.horizontal, [modeCex]) ∧
    mpCex.heads.map RdpHead.monitorMode = [modeCex] ∧
    (rdp_disp_handle_adjust_monitor_layout cfgPlain mpCex [monCex]).calls =
      [MutationCall.outputMove 0 0 0] ∧
    (rdp_disp_handle_adjust_monitor_layout cfgPlain mpCex [monCex]).calls ≠ [] := by
  decide

/-- Witness for C7 (amended): with the same resubmission but no bound
output, the call list is empty and the registry is unchanged. -/
theorem C7_amended_witness :
    (rdp_disp_handle_adjust_monitor_layout cfgPlain ⟨[⟨0, modeCex, none⟩], 1⟩ [monCex]).success
      = true ∧
    (rdp_disp_handle_adjust_monitor_layout cfgPlain ⟨[⟨0, modeCex, none⟩], 1⟩ [monCex]).calls
      = [] ∧
    (rdp_disp_handle_adjust_monitor_layout cfgPlain
      ⟨[⟨0, modeCex, none⟩], 1⟩ [monCex]).mp.headIndex = 1 := by
  have h := C7_amended cfgPlain ⟨[⟨0, modeCex, none⟩], 1⟩ [monCex]
    Arrangement.horizontal [modeCex] (by decide) (by decide)
  exact ⟨h.1, h.2.2.1 (by decide), h.2.2.2.2.2⟩

end RdpDisp
